import Mathlib

/-!
Verification of the real-time collaboration SDK
(`sdk/src/collab-doc.ts` and `server/src/index.ts`).

The development shallowly embeds the JSON-like document tree, the per-path
LWW metadata map, the client replica engine (`CollabDoc`) and the server
room handler, and proves/refutes the frozen claims about them.

Modelling conventions:
* JavaScript numbers used as timestamps/versions are modelled as `Int`
  (all arithmetic in the source is integral: `Date.now()`, `version + 1`).
* Path segments are strings or non-negative integers (`Seg`), as produced
  by the application (`Path = (string | number)[]` with array indices).
* JavaScript objects are insertion-ordered string-keyed association lists;
  indexing an object by a number uses the decimal string of the number,
  exactly as JavaScript property access coerces numeric keys.
* Array "holes" created by out-of-range index assignment are modelled as
  `null` paddings; named (non-index) properties on arrays and inherited
  prototype properties (for example `length`, `toString`) are not
  representable — no verified claim depends on them.
* Wall-clock time (`Date.now()`) and the random operation-id generator are
  externalized as explicit parameters of the local-edit functions.
-/

/-- JavaScript primitive (non-container) values. -/
inductive Prim where
  | num (n : Int)
  | str (s : String)
  | bool (b : Bool)
  | null
  | undef
deriving DecidableEq, Repr

/-- JSON-like document value: primitive, object (insertion-ordered map) or
array.  Mirrors the untyped trees held in `this.doc` (client) and
`roomStates` (server). -/
inductive JValue where
  | prim (p : Prim)
  | obj (fields : List (String × JValue))
  | arr (elems : List JValue)
deriving Repr

/-- A path segment: string key or non-negative integer index, mirroring
`type Path = (string | number)[]` in `collab-doc.ts`. -/
inductive Seg where
  | str (s : String)
  | num (n : Nat)
deriving DecidableEq, Repr

/-- `'set' | 'del'`, the `op` field of an operation. -/
inductive OpKind where
  | set
  | del
deriving DecidableEq, Repr

/-- LWW metadata record `{ timestamp, actorId, version }` stored per path
key, mirroring `this.metadata[pathKey]` and `roomMetadata`. -/
structure Meta where
  timestamp : Int
  actorId : String
  version : Int
deriving DecidableEq, Repr

/-- The wire-level operation, mirroring `type Operation` in
`collab-doc.ts` (`value?: any` becomes `Option JValue`; `del` operations
carry `none`). -/
structure Operation where
  id : String
  path : List Seg
  op : OpKind
  value : Option JValue
  timestamp : Int
  actorId : String
  version : Int
deriving Repr

/-- The metadata map `{ [path: string]: Meta }`: an insertion-ordered
association list keyed by the canonical path key. -/
abbrev MetaMap := List (String × Meta)

/-- Lookup in the metadata map, mirroring `this.metadata[pathKey]`. -/
def mdFind : MetaMap → String → Option Meta
  | [], _ => none
  | (k, m) :: rest, key => if k = key then some m else mdFind rest key

/-- `this.metadata[pathKey] = {...}`: replace in place if the key exists
(JavaScript objects keep insertion order on overwrite), else append. -/
def mdSet : MetaMap → String → Meta → MetaMap
  | [], key, m => [(key, m)]
  | (k, v) :: rest, key, m =>
      if k = key then (key, m) :: rest else (k, v) :: mdSet rest key m

/-- `delete this.metadata[pathKey]`.  JavaScript objects have unique keys,
so on every state built by `mdSet` removing all matches coincides with
removing the single entry. -/
def mdRemove (l : MetaMap) (key : String) : MetaMap :=
  l.filter (fun kv => kv.1 ≠ key)

/-- Association-list lookup for object fields (`hasOwnProperty` + read). -/
def objFind : List (String × JValue) → String → Option JValue
  | [], _ => none
  | (k, v) :: rest, key => if k = key then some v else objFind rest key

/-- Object field assignment `current[key] = v` (in-place overwrite keeps
insertion order, otherwise append). -/
def objSet : List (String × JValue) → String → JValue → List (String × JValue)
  | [], key, v => [(key, v)]
  | (k, w) :: rest, key, v =>
      if k = key then (key, v) :: rest else (k, w) :: objSet rest key v

/-- Object field removal `delete current[key]` (unique keys in JavaScript
objects, see `mdRemove`). -/
def objRemove (l : List (String × JValue)) (key : String) : List (String × JValue) :=
  l.filter (fun kv => kv.1 ≠ key)

/-- The string a segment denotes when used to index a JavaScript object:
numeric keys are coerced to their decimal representation. -/
def segKey : Seg → String
  | .str s => s
  | .num n => toString n

/-- Whether a segment is a number (`typeof segment === 'number'`). -/
def segIsNum : Seg → Bool
  | .str _ => false
  | .num _ => true

/-- `typeof v === 'object' && v !== null` for the stored value. -/
def JValue.isContainer : JValue → Bool
  | .prim _ => false
  | .obj _ => true
  | .arr _ => true

/-- `Array.isArray v`. -/
def JValue.isArr : JValue → Bool
  | .arr _ => true
  | _ => false

/-- `current.hasOwnProperty(segment) ? current[segment] : absent`. -/
def JValue.getSeg : JValue → Seg → Option JValue
  | .obj fields, seg => objFind fields (segKey seg)
  | .arr elems, .num n => elems.get? n
  | .arr _, .str _ => none
  | .prim _, _ => none

/-- Array index assignment `elems[n] = v`: in range overwrites, out of
range extends the array to length `n + 1` (JavaScript holes modelled as
`null`). -/
def listSetPad (l : List JValue) (n : Nat) (v : JValue) : List JValue :=
  if n < l.length then l.set n v
  else l ++ List.replicate (n - l.length) (.prim .null) ++ [v]

/-- `current[segment] = v` on a container.  A string key on an array would
attach a named property in JavaScript; that case is not representable and
leaves the array unchanged (no verified claim reaches it). -/
def JValue.setSeg : JValue → Seg → JValue → JValue
  | .obj fields, seg, v => .obj (objSet fields (segKey seg) v)
  | .arr elems, .num n, v => .arr (listSetPad elems n v)
  | .arr elems, .str _, _ => .arr elems
  | .prim p, _, _ => .prim p

/-- Fresh intermediate container chosen by the type of the next path
segment: `typeof path[i+1] === 'number' ? [] : {}`. -/
def emptyContainer (nextIsNum : Bool) : JValue :=
  if nextIsNum then .arr [] else .obj []

/-- Minimal JSON string escaping (backslash and double quote), enough to
make the canonical path key injective on the paths that occur. -/
def escapeJson (s : String) : String :=
  s.data.foldl
    (fun acc c =>
      if c = '"' then acc ++ "\\\""
      else if c = '\\' then acc ++ "\\\\"
      else acc.push c) ""

/-- JSON rendering of one path segment. -/
def segJson : Seg → String
  | .str s => "\"" ++ escapeJson s ++ "\""
  | .num n => toString n

/-- `JSON.stringify(path)`: the canonical path key used by both client and
server to index the metadata map. -/
def pathKey (p : List Seg) : String :=
  "[" ++ String.intercalate "," (p.map segJson) ++ "]"

/-- The client's LWW decision, exactly as computed by the `apply` flag in
`CollabDoc.applyOperation` (collab-doc.ts lines 224-238): local operations
(`isRemote = false`) and operations at a path with no metadata always
apply; a remote operation against existing metadata applies iff it wins by
timestamp or by the equal-timestamp / smaller-actor-id tie-break. -/
def clientDecide (isRemote : Bool) (existing : Option Meta) (op : Operation) : Bool :=
  match isRemote, existing with
  | true, some m =>
      decide (op.timestamp > m.timestamp) ||
        (decide (op.timestamp = m.timestamp) && decide (op.actorId < m.actorId))
  | _, _ => true

/-- The server's LWW decision, exactly as computed by the `applyServerOp`
flag in the `operation` handler (server/src/index.ts lines 51-64). -/
def serverDecide (existing : Option Meta) (op : Operation) : Bool :=
  match existing with
  | some m =>
      decide (op.timestamp > m.timestamp) ||
        (decide (op.timestamp = m.timestamp) && decide (op.actorId < m.actorId))
  | none => true

/-- Terminal-segment handling of `CollabDoc.applyOperation` for `del`
(collab-doc.ts lines 268-279): splice a valid array index, delete an
existing object key, otherwise warn and leave the tree unchanged
(execution then still continues to the metadata update). -/
def clientDelTerminal : JValue → Seg → JValue
  | .arr elems, .num n =>
      if n < elems.length then .arr (elems.eraseIdx n) else .arr elems
  | .arr elems, .str _ => .arr elems
  | .obj fields, seg =>
      if (objFind fields (segKey seg)).isSome
      then .obj (objRemove fields (segKey seg))
      else .obj fields
  | .prim p, _ => .prim p

/-- Terminal-segment handling of `CollabDoc.applyOperation`
(collab-doc.ts lines 264-280): `current[lastSegment] = targetValue` for
`set`, `clientDelTerminal` for `del`.  An empty path makes
`path[path.length - 1]` the JavaScript value `undefined`, which indexes as
the string key `"undefined"`. -/
def clientTerminal (action : OpKind) (v : JValue) (cur : JValue) (last : Seg) : JValue :=
  match action with
  | .set => cur.setSeg last v
  | .del => clientDelTerminal cur last

/-- The intermediate-segment walk of `CollabDoc.applyOperation`
(collab-doc.ts lines 246-262) followed by the terminal step.  Returns
`none` when the code path hits one of the early `return` statements
(non-container current, or a missing/wrong-typed intermediate during a
`del`), in which case neither the metadata update nor the `change`
emission runs. -/
def clientWalk (action : OpKind) (v : JValue) : JValue → List Seg → Option JValue
  | cur, [] => some (clientTerminal action v cur (.str "undefined"))
  | cur, [last] => some (clientTerminal action v cur last)
  | cur, seg :: next :: rest =>
      if cur.isContainer then
        match cur.getSeg seg with
        | some child =>
            if child.isContainer && (child.isArr == segIsNum next) then
              (clientWalk action v child (next :: rest)).map
                (fun child2 => cur.setSeg seg child2)
            else
              match action with
              | .set =>
                  (clientWalk .set v (emptyContainer (segIsNum next)) (next :: rest)).map
                    (fun child2 => cur.setSeg seg child2)
              | .del => none
        | none =>
            match action with
            | .set =>
                (clientWalk .set v (emptyContainer (segIsNum next)) (next :: rest)).map
                  (fun child2 => cur.setSeg seg child2)
            | .del => none
      else none

/-- Events and messages observable from a client replica, in emission
order: the five `emit` signals, `socket.emit('operation', roomId, op)`
sends, and the `socket.emit('join_room', roomId)` request. -/
inductive CEvent where
  | change (path : List Seg) (action : OpKind) (value : Option JValue) (isRemote : Bool)
  | connectE
  | disconnectE (reason : String)
  | syncedE
  | pauseE
  | resumeE
deriving Repr

/-- One chronological output item of a client handler. -/
inductive COut where
  | event (e : CEvent)
  | send (op : Operation)
  | joinRoom (roomId : String)
deriving Repr

/-- `CollabDoc.applyOperation` (collab-doc.ts lines 224-293) as a function
of the document, the metadata map and the incoming operation: LWW
decision, tree walk, metadata update and `change` emission. -/
def clientApplyOperation (doc : JValue) (md : MetaMap) (op : Operation)
    (isRemote : Bool) : JValue × MetaMap × List COut :=
  let pk := pathKey op.path
  if clientDecide isRemote (mdFind md pk) op then
    match clientWalk op.op (op.value.getD (.prim .undef)) doc op.path with
    | none => (doc, md, [])
    | some doc2 =>
        let md2 :=
          match op.op with
          | .del => mdRemove md pk
          | .set => mdSet md pk ⟨op.timestamp, op.actorId, op.version⟩
        (doc2, md2, [.event (.change op.path op.op op.value isRemote)])
  else (doc, md, [])

/-- `CollabDoc.get` (collab-doc.ts lines 140-149): walk the document,
absent as soon as a segment is missing or the current value is not a
container. -/
def getPath : JValue → List Seg → Option JValue
  | cur, [] => some cur
  | cur, seg :: rest =>
      match cur.getSeg seg with
      | some child => getPath child rest
      | none => none

/-- `deepSet` (server/src/index.ts lines 103-113).  Each intermediate is
replaced by a fresh container only when it is missing or not an object
(`!(key in current) || typeof current[key] !== 'object' ||
current[key] === null`); unlike the client walk there is no
`Array.isArray` check against the type of the next segment, so an
existing container of the wrong kind is descended into as-is. -/
def deepSet : JValue → List Seg → JValue → JValue
  | cur, [], v => cur.setSeg (.str "undefined") v
  | cur, [last], v => cur.setSeg last v
  | cur, key :: next :: rest, v =>
      match cur.getSeg key with
      | some child =>
          if child.isContainer then
            cur.setSeg key (deepSet child (next :: rest) v)
          else
            cur.setSeg key (deepSet (emptyContainer (segIsNum next)) (next :: rest) v)
      | none =>
          cur.setSeg key (deepSet (emptyContainer (segIsNum next)) (next :: rest) v)

/-- Terminal-segment handling of `deepDelete` (server/src/index.ts lines
124-131): splice a valid array index, delete an existing object key,
otherwise leave the tree unchanged. -/
def serverDelTerminal : JValue → Seg → JValue
  | .arr elems, .num n =>
      if n < elems.length then .arr (elems.eraseIdx n) else .arr elems
  | .arr elems, .str _ => .arr elems
  | .obj fields, seg =>
      if (objFind fields (segKey seg)).isSome
      then .obj (objRemove fields (segKey seg))
      else .obj fields
  | .prim p, _ => .prim p

/-- `deepDelete` (server/src/index.ts lines 115-132): early `return` as
soon as an intermediate is missing or not a container — note that this
only skips the tree mutation, not the caller's metadata update. -/
def deepDelete : JValue → List Seg → JValue
  | cur, [] => serverDelTerminal cur (.str "undefined")
  | cur, [last] => serverDelTerminal cur last
  | cur, key :: next :: rest =>
      match cur.getSeg key with
      | some child =>
          if child.isContainer then
            cur.setSeg key (deepDelete child (next :: rest))
          else cur
      | none => cur

/-- A message the server's `operation` handler sends: the unconditional
`io.to(roomId).emit('operation', roomId, operation)` rebroadcast (line
86), delivered to every member of the room, including the sender, since
`io.to` targets the whole broadcast group the sender joined. -/
inductive SOut where
  | toRoom (roomId : String) (op : Operation)
deriving Repr

/-- The server's `operation` handler (server/src/index.ts lines 42-88) on
one room's document and metadata: LWW decision, `deepSet`/`deepDelete`
mutation, metadata update, and the unconditional verbatim rebroadcast. -/
def serverHandle (roomId : String) (doc : JValue) (md : MetaMap)
    (op : Operation) : JValue × MetaMap × List SOut :=
  let pk := pathKey op.path
  if serverDecide (mdFind md pk) op then
    let doc2 :=
      match op.op with
      | .set => deepSet doc op.path (op.value.getD (.prim .undef))
      | .del => deepDelete doc op.path
    let md2 :=
      match op.op with
      | .del => mdRemove md pk
      | .set => mdSet md pk ⟨op.timestamp, op.actorId, op.version⟩
    (doc2, md2, [.toRoom roomId op])
  else (doc, md, [.toRoom roomId op])

/-- The replica-local state of one `CollabDoc` instance: document,
metadata, offline queue, the three orthogonal state axes
(`connected`, `syncedWithServer`, `isLiveMode`) and the remote buffer. -/
structure ClientState where
  roomId : String
  actorId : String
  doc : JValue
  metadata : MetaMap
  offlineQueue : List Operation
  connected : Bool
  synced : Bool
  live : Bool
  remoteBuffer : List Operation
deriving Repr

/-- The state set up by the `CollabDoc` constructor (collab-doc.ts lines
81-96). -/
def initClient (roomId actorId : String) : ClientState :=
  { roomId := roomId, actorId := actorId, doc := .obj [], metadata := []
    offlineQueue := [], connected := false, synced := false, live := true
    remoteBuffer := [] }

/-- `processOfflineQueue` (collab-doc.ts lines 200-208): when connected
and synced and the queue is non-empty, clear the queue and send every
queued operation in original order.  The live flag is not consulted. -/
def processOfflineQueue (s : ClientState) : ClientState × List COut :=
  if s.connected && s.synced && !s.offlineQueue.isEmpty then
    ({ s with offlineQueue := [] }, s.offlineQueue.map COut.send)
  else (s, [])

/-- `queueOrSendOperation` (collab-doc.ts lines 187-198): paused replicas
always enqueue; live replicas send iff connected and synced, else
enqueue. -/
def queueOrSendOperation (s : ClientState) (op : Operation) : ClientState × List COut :=
  if !s.live then ({ s with offlineQueue := s.offlineQueue ++ [op] }, [])
  else if s.connected && s.synced then (s, [.send op])
  else ({ s with offlineQueue := s.offlineQueue ++ [op] }, [])

/-- The `connect` socket handler (collab-doc.ts lines 98-102): mark
connected, emit `connect`, request to join the room. -/
def onConnect (s : ClientState) : ClientState × List COut :=
  ({ s with connected := true }, [.event .connectE, .joinRoom s.roomId])

/-- The `disconnect` socket handler (collab-doc.ts lines 104-107): mark
disconnected and emit `disconnect` with the reason. -/
def onDisconnect (s : ClientState) (reason : String) : ClientState × List COut :=
  ({ s with connected := false }, [.event (.disconnectE reason)])

/-- The `initial_state` socket handler (collab-doc.ts lines 109-115):
wholesale replacement of document and metadata (the JSON round-trip deep
copy is the identity here), mark synced, emit `synced`, then attempt to
flush the offline queue. -/
def onInitialState (s : ClientState) (d : JValue) (m : MetaMap) :
    ClientState × List COut :=
  let s1 := { s with doc := d, metadata := m, synced := true }
  let (s2, outs) := processOfflineQueue s1
  (s2, .event .syncedE :: outs)

/-- `this.offlineQueue.findIndex(q => q.id === op.id)` followed by
`splice(index, 1)`: remove the first queued operation with the given id. -/
def removeFirstById : List Operation → String → List Operation
  | [], _ => []
  | q :: rest, i => if q.id = i then rest else q :: removeFirstById rest i

/-- `applyRemoteOperation` (collab-doc.ts lines 210-222): an id found in
the offline queue is this replica's own echo — drop it from the queue and
do nothing else; while paused, buffer the operation; otherwise merge it
as a remote operation. -/
def applyRemoteOperation (s : ClientState) (op : Operation) : ClientState × List COut :=
  if s.offlineQueue.any (fun q => q.id = op.id) then
    ({ s with offlineQueue := removeFirstById s.offlineQueue op.id }, [])
  else if !s.live then
    ({ s with remoteBuffer := s.remoteBuffer ++ [op] }, [])
  else
    let (d, m, outs) := clientApplyOperation s.doc s.metadata op true
    ({ s with doc := d, metadata := m }, outs)

/-- The operation a local `set` call constructs (collab-doc.ts lines
151-160); `Date.now()` and the generated id are parameters.  The version
is `(existing version at the path, default 0) + 1` (the JavaScript
`|| 0` also maps an explicit version 0 to 0, like `getD`). -/
def mkSetOp (s : ClientState) (path : List Seg) (v : JValue) (ts : Int)
    (oid : String) : Operation :=
  { id := oid, path := path, op := .set, value := some v, timestamp := ts
    actorId := s.actorId
    version := (match mdFind s.metadata (pathKey path) with
                | some m => m.version
                | none => 0) + 1 }

/-- The operation a local `delete` call constructs (collab-doc.ts lines
165-173). -/
def mkDelOp (s : ClientState) (path : List Seg) (ts : Int) (oid : String) : Operation :=
  { id := oid, path := path, op := .del, value := none, timestamp := ts
    actorId := s.actorId
    version := (match mdFind s.metadata (pathKey path) with
                | some m => m.version
                | none => 0) + 1 }

/-- `CollabDoc.set` (collab-doc.ts lines 151-163): apply locally, then
queue or send. -/
def localSet (s : ClientState) (path : List Seg) (v : JValue) (ts : Int)
    (oid : String) : ClientState × List COut :=
  let op := mkSetOp s path v ts oid
  let (d, m, outs1) := clientApplyOperation s.doc s.metadata op false
  let (s2, outs2) := queueOrSendOperation { s with doc := d, metadata := m } op
  (s2, outs1 ++ outs2)

/-- `CollabDoc.delete` (collab-doc.ts lines 165-176). -/
def localDelete (s : ClientState) (path : List Seg) (ts : Int)
    (oid : String) : ClientState × List COut :=
  let op := mkDelOp s path ts oid
  let (d, m, outs1) := clientApplyOperation s.doc s.metadata op false
  let (s2, outs2) := queueOrSendOperation { s with doc := d, metadata := m } op
  (s2, outs1 ++ outs2)

/-- `CollabDoc.pause` (collab-doc.ts lines 311-316). -/
def pauseClient (s : ClientState) : ClientState × List COut :=
  if s.live then ({ s with live := false }, [.event .pauseE]) else (s, [])

/-- The `while`/`shift` drain of the remote buffer inside `resume`
(collab-doc.ts lines 321-326): each buffered operation is independently
merged via `applyOperation(op, true)`, front to back. -/
def drainBuffer : JValue → MetaMap → List Operation → JValue × MetaMap × List COut
  | d, m, [] => (d, m, [])
  | d, m, op :: rest =>
      let (d1, m1, o1) := clientApplyOperation d m op true
      let (d2, m2, o2) := drainBuffer d1 m1 rest
      (d2, m2, o1 ++ o2)

/-- `CollabDoc.resume` (collab-doc.ts lines 318-331): when paused, go
live, drain the remote buffer in arrival order, flush the offline queue,
then emit `resume`; no-op when already live. -/
def resumeClient (s : ClientState) : ClientState × List COut :=
  if !s.live then
    let (d, m, o1) := drainBuffer s.doc s.metadata s.remoteBuffer
    let s1 := { s with live := true, doc := d, metadata := m, remoteBuffer := [] }
    let (s2, o2) := processOfflineQueue s1
    (s2, o1 ++ o2 ++ [.event .resumeE])
  else (s, [])

/-- The `operation` socket handler (collab-doc.ts lines 117-121): ignore
messages for other rooms, else `applyRemoteOperation`. -/
def onOperationMsg (s : ClientState) (roomId : String) (op : Operation) :
    ClientState × List COut :=
  if roomId = s.roomId then applyRemoteOperation s op else (s, [])

/-- `typeof v === 'object' && !Array.isArray v` (plain mapping check). -/
def JValue.isObj : JValue → Bool
  | .obj _ => true
  | _ => false

/-- The document/metadata pair obtained by merging a list of remote
operations one by one, in list order, each through the client's
`applyOperation(op, true)` — the specification-level reading of the
remote-buffer drain. -/
def mergeRemoteAll (d : JValue) (m : MetaMap) (ops : List Operation) :
    JValue × MetaMap :=
  ops.foldl
    (fun dm op =>
      ((clientApplyOperation dm.1 dm.2 op true).1,
       (clientApplyOperation dm.1 dm.2 op true).2.1))
    (d, m)

theorem mdFind_mdRemove_self (l : MetaMap) (k : String) :
    mdFind (mdRemove l k) k = none := by
  induction l with
  | nil => rfl
  | cons a rest ih =>
      unfold mdRemove at ih ⊢
      rw [List.filter_cons]
      by_cases h : a.1 = k
      · simpa [h] using ih
      · simpa [h, mdFind] using ih

theorem objFind_objSet_self (l : List (String × JValue)) (k : String) (v : JValue) :
    objFind (objSet l k v) k = some v := by
  induction l with
  | nil => simp [objSet, objFind]
  | cons a rest ih =>
      by_cases h : a.1 = k
      · simp [objSet, objFind, h]
      · simpa [objSet, objFind, h] using ih

theorem listSet_get_self (l : List JValue) (n : Nat) (v : JValue)
    (h : n < l.length) : (l.set n v)[n]? = some v := by
  induction l generalizing n with
  | nil => simp at h
  | cons a rest ih =>
      cases n with
      | zero => simp [List.set]
      | succ n =>
          simp only [List.length_cons, Nat.succ_lt_succ_iff] at h
          simpa [List.set] using ih n h

theorem append_single_get_self (pre : List JValue) (v : JValue) :
    (pre ++ [v])[pre.length]? = some v := by
  induction pre with
  | nil => rfl
  | cons a rest ih => simp [ih]


theorem listSetPad_get_self (l : List JValue) (n : Nat) (v : JValue) :
    (listSetPad l n v)[n]? = some v := by
  unfold listSetPad
  by_cases h : n < l.length
  · simp only [h, if_true]
    exact listSet_get_self l n v h
  · simp only [h, if_false]
    have hlen : (l ++ List.replicate (n - l.length) (JValue.prim .null)).length = n := by
      simp only [List.length_append, List.length_replicate]
      omega
    calc (l ++ List.replicate (n - l.length) (JValue.prim .null) ++ [v])[n]?
        = ((l ++ List.replicate (n - l.length) (JValue.prim .null)) ++ [v])[
            (l ++ List.replicate (n - l.length) (JValue.prim .null)).length]? := by
          rw [hlen]
      _ = some v := append_single_get_self _ v

theorem getSeg_setSeg (cur : JValue) (seg : Seg) (x : JValue)
    (h : cur.isObj = true ∨ (cur.isArr = true ∧ segIsNum seg = true)) :
    (cur.setSeg seg x).getSeg seg = some x := by
  cases cur with
  | prim p => simp [JValue.isObj, JValue.isArr] at h
  | obj fields =>
      simp [JValue.setSeg, JValue.getSeg, objFind_objSet_self]
  | arr elems =>
      cases seg with
      | str s => simp [JValue.isObj, JValue.isArr, segIsNum] at h
      | num n => simp [JValue.setSeg, JValue.getSeg, listSetPad_get_self]

theorem clientWalk_set_get (v : JValue) :
    ∀ (p : List Seg) (cur : JValue), p ≠ [] →
      (cur.isObj = true ∨ (cur.isArr = true ∧ ∃ n rest, p = Seg.num n :: rest)) →
      ∃ cur2, clientWalk .set v cur p = some cur2 ∧ getPath cur2 p = some v := by
  intro p
  induction p with
  | nil => intro cur hne _; exact absurd rfl hne
  | cons seg tail ih =>
      intro cur _ h
      have hroot : cur.isObj = true ∨ (cur.isArr = true ∧ segIsNum seg = true) := by
        rcases h with h | ⟨ha, n, rest, heq⟩
        · exact Or.inl h
        · cases heq
          exact Or.inr ⟨ha, rfl⟩
      have hcont : cur.isContainer = true := by
        rcases hroot with h | ⟨h, _⟩ <;> cases cur <;>
          simp_all [JValue.isObj, JValue.isArr, JValue.isContainer]
      cases tail with
      | nil =>
          refine ⟨cur.setSeg seg v, rfl, ?_⟩
          simp [getPath, getSeg_setSeg cur seg v hroot]
      | cons next rest =>
          have hnextHyp : ∀ child : JValue, child.isContainer = true →
              child.isArr = segIsNum next →
              (child.isObj = true ∨
                (child.isArr = true ∧ ∃ n r, next :: rest = Seg.num n :: r)) := by
            intro child hc harr
            cases child with
            | prim p => simp [JValue.isContainer] at hc
            | obj fields => exact Or.inl rfl
            | arr elems =>
                refine Or.inr ⟨rfl, ?_⟩
                cases next with
                | str s => simp [JValue.isArr, segIsNum] at harr
                | num n => exact ⟨n, rest, rfl⟩
          have hfresh : (emptyContainer (segIsNum next)).isContainer = true ∧
              (emptyContainer (segIsNum next)).isArr = segIsNum next := by
            cases next <;> simp [emptyContainer, segIsNum, JValue.isContainer, JValue.isArr]
          cases hg : cur.getSeg seg with
          | some child =>
              by_cases hc : (child.isContainer && (child.isArr == segIsNum next)) = true
              · have hc1 : child.isContainer = true := by
                  simp only [Bool.and_eq_true] at hc; exact hc.1
                have hc2 : child.isArr = segIsNum next := by
                  simp only [Bool.and_eq_true, beq_iff_eq] at hc; exact hc.2
                obtain ⟨child2, hw, hgp⟩ :=
                  ih child (by simp) (hnextHyp child hc1 hc2)
                refine ⟨cur.setSeg seg child2, ?_, ?_⟩
                · simp [clientWalk, hcont, hg, hc, hw]
                · simpa [getPath, getSeg_setSeg cur seg child2 hroot] using hgp
              · obtain ⟨child2, hw, hgp⟩ :=
                  ih (emptyContainer (segIsNum next)) (by simp)
                    (hnextHyp _ hfresh.1 hfresh.2)
                refine ⟨cur.setSeg seg child2, ?_, ?_⟩
                · simp [clientWalk, hcont, hg, hc, hw]
                · simpa [getPath, getSeg_setSeg cur seg child2 hroot] using hgp
          | none =>
              obtain ⟨child2, hw, hgp⟩ :=
                ih (emptyContainer (segIsNum next)) (by simp)
                  (hnextHyp _ hfresh.1 hfresh.2)
              refine ⟨cur.setSeg seg child2, ?_, ?_⟩
              · simp [clientWalk, hcont, hg, hw]
              · simpa [getPath, getSeg_setSeg cur seg child2 hroot] using hgp

theorem drainBuffer_eq_mergeRemoteAll :
    ∀ (ops : List Operation) (d : JValue) (m : MetaMap),
      (drainBuffer d m ops).1 = (mergeRemoteAll d m ops).1 ∧
      (drainBuffer d m ops).2.1 = (mergeRemoteAll d m ops).2 := by
  intro ops
  induction ops with
  | nil => intro d m; exact ⟨rfl, rfl⟩
  | cons op rest ih =>
      intro d m
      simpa [drainBuffer, mergeRemoteAll, List.foldl_cons] using
        ih (clientApplyOperation d m op true).1 (clientApplyOperation d m op true).2.1

/-- C1: the LWW merge decision.  An operation at a path with no existing
metadata is always accepted (locally and remotely, on client and server);
a remote operation against existing metadata is accepted iff its timestamp
is strictly greater, or the timestamps are equal and its writer id is
lexicographically strictly smaller; the server computes the identical
decision. -/
theorem C1_lww_merge_decision (op : Operation) (m : Meta) :
    clientDecide false none op = true ∧
    clientDecide false (some m) op = true ∧
    clientDecide true none op = true ∧
    serverDecide none op = true ∧
    (clientDecide true (some m) op = true ↔
      (m.timestamp < op.timestamp ∨
        (op.timestamp = m.timestamp ∧ op.actorId < m.actorId))) ∧
    serverDecide (some m) op = clientDecide true (some m) op := by
  refine ⟨rfl, rfl, rfl, rfl, ?_, rfl⟩
  simp [clientDecide]

/-- C7: for every room state and every incoming operation, accepted or
rejected, the server's only outgoing message is the original operation,
rebroadcast verbatim to the whole room (which includes the sender, who
joined the room's broadcast group); no rejection notice exists in the
output vocabulary. -/
theorem C7_server_rebroadcast (roomId : String) (d : JValue) (md : MetaMap)
    (op : Operation) :
    (serverHandle roomId d md op).2.2 = [SOut.toRoom roomId op] := by
  unfold serverHandle
  by_cases h : serverDecide (mdFind md (pathKey op.path)) op = true <;> simp [h]

/-- C8: a rejected remote operation is a silent non-application: the
client replica's document and metadata are completely unchanged and no
event is emitted; the server likewise leaves its room state untouched
(its unconditional rebroadcast is the only output). -/
theorem C8_rejection_silent (roomId : String) (d : JValue) (md : MetaMap)
    (op : Operation) :
    (clientDecide true (mdFind md (pathKey op.path)) op = false →
      clientApplyOperation d md op true = (d, md, [])) ∧
    (serverDecide (mdFind md (pathKey op.path)) op = false →
      serverHandle roomId d md op = (d, md, [SOut.toRoom roomId op])) := by
  constructor
  · intro h
    unfold clientApplyOperation
    simp [h]
  · intro h
    unfold serverHandle
    simp [h]

/-- C8 witness: a concrete rejected operation (timestamp 50 against
existing timestamp 100) leaves client and server state unchanged. -/
theorem C8_rejection_silent_witness :
    clientApplyOperation (JValue.obj [("a", JValue.prim (Prim.num 3))])
        [("[\"a\"]", ⟨100, "A", 1⟩)]
        { id := "w8", path := [.str "a"], op := .set,
          value := some (.prim (.num 9)), timestamp := 50, actorId := "B",
          version := 1 } true
      = (JValue.obj [("a", JValue.prim (Prim.num 3))],
         [("[\"a\"]", ⟨100, "A", 1⟩)], []) ∧
    serverHandle "r" (JValue.obj [("a", JValue.prim (Prim.num 3))])
        [("[\"a\"]", ⟨100, "A", 1⟩)]
        { id := "w8", path := [.str "a"], op := .set,
          value := some (.prim (.num 9)), timestamp := 50, actorId := "B",
          version := 1 }
      = (JValue.obj [("a", JValue.prim (Prim.num 3))],
         [("[\"a\"]", ⟨100, "A", 1⟩)],
         [SOut.toRoom "r"
           { id := "w8", path := [.str "a"], op := .set,
             value := some (.prim (.num 9)), timestamp := 50, actorId := "B",
             version := 1 }]) :=
  ⟨(C8_rejection_silent "r" _ _ _).1 (by decide),
   (C8_rejection_silent "r" _ _ _).2 (by decide)⟩

/-- C10: the merge decision is a function of only the existing metadata's
timestamp and writer id and the incoming operation's timestamp and writer
id — two incoming operations agreeing on path, timestamp and writer id
but differing arbitrarily in id, version or value receive the identical
decision, on the client and on the server, and the two sides agree. -/
theorem C10_decision_noninterference (md : MetaMap) (op1 op2 : Operation)
    (hp : op1.path = op2.path) (ht : op1.timestamp = op2.timestamp)
    (ha : op1.actorId = op2.actorId) :
    clientDecide true (mdFind md (pathKey op1.path)) op1
      = clientDecide true (mdFind md (pathKey op2.path)) op2 ∧
    serverDecide (mdFind md (pathKey op1.path)) op1
      = serverDecide (mdFind md (pathKey op2.path)) op2 ∧
    clientDecide true (mdFind md (pathKey op1.path)) op1
      = serverDecide (mdFind md (pathKey op1.path)) op1 := by
  rw [hp]
  cases mdFind md (pathKey op2.path) with
  | none => exact ⟨rfl, rfl, rfl⟩
  | some m => simp [clientDecide, serverDecide, ht, ha]

/-- C10 witness: two concrete operations differing only in id, version and
value get the same (rejecting) decision against concrete metadata. -/
theorem C10_decision_noninterference_witness :
    clientDecide true
        (mdFind [("[\"k\"]", ⟨100, "A", 1⟩)] (pathKey [.str "k"]))
        { id := "x1", path := [.str "k"], op := .set,
          value := some (.prim (.num 1)), timestamp := 100, actorId := "B",
          version := 4 }
      = clientDecide true
          (mdFind [("[\"k\"]", ⟨100, "A", 1⟩)] (pathKey [.str "k"]))
          { id := "x2", path := [.str "k"], op := .del, value := none,
            timestamp := 100, actorId := "B", version := 9 } :=
  (C10_decision_noninterference [("[\"k\"]", ⟨100, "A", 1⟩)]
    { id := "x1", path := [.str "k"], op := .set,
      value := some (.prim (.num 1)), timestamp := 100, actorId := "B",
      version := 4 }
    { id := "x2", path := [.str "k"], op := .del, value := none,
      timestamp := 100, actorId := "B", version := 9 } rfl rfl rfl).1

/-- The concrete operation exhibiting the client/server divergence for
claim C2: a `set` at path `["a", 0]`. -/
def c2op : Operation :=
  { id := "o1", path := [.str "a", .num 0], op := .set,
    value := some (.prim (.num 7)), timestamp := 1, actorId := "A",
    version := 1 }

/-- The starting document for claim C2: `{"a": {}}` — the intermediate
value at `"a"` is a mapping, but the next segment `0` requires an array. -/
def c2doc : JValue := .obj [("a", .obj [])]

/-- C2: the claim asserts that client and server process every operation
identically, and in particular that a wrong-typed intermediate container
is overwritten on both sides.  The code diverges: the client's walk
(collab-doc.ts line 253) checks `Array.isArray(current[segment]) !==
(typeof path[i+1] === 'number')` and replaces the mapping `{}` with an
array, producing `{"a": [7]}`, while the server's `deepSet`
(server/src/index.ts line 107) only replaces missing or non-object
intermediates, keeps the mapping, and produces `{"a": {"0": 7}}`. -/
theorem C2_server_client_divergence :
    (clientApplyOperation c2doc [] c2op true).1
      = JValue.obj [("a", JValue.arr [JValue.prim (Prim.num 7)])] ∧
    (serverHandle "r" c2doc [] c2op).1
      = JValue.obj [("a", JValue.obj [("0", JValue.prim (Prim.num 7))])] ∧
    (clientApplyOperation c2doc [] c2op true).1
      ≠ (serverHandle "r" c2doc [] c2op).1 := by
  refine ⟨rfl, rfl, ?_⟩
  intro h
  rw [show (clientApplyOperation c2doc [] c2op true).1
        = JValue.obj [("a", JValue.arr [JValue.prim (Prim.num 7)])] from rfl,
      show (serverHandle "r" c2doc [] c2op).1
        = JValue.obj [("a", JValue.obj [("0", JValue.prim (Prim.num 7))])] from rfl] at h
  simp at h

/-- A reachable connected-and-synced replica state used by the C5
counterexample. -/
def c5Synced : ClientState :=
  (onInitialState ((onConnect (initClient "r" "B")).1) (.obj []) []).1

/-- C5 counterexample: the claim says the disconnect handler marks the
replica unsynced, but after handling a disconnect in a connected, synced
state the `synced` flag is still `true` — only `connected` is cleared
(collab-doc.ts lines 104-107 never touch `syncedWithServer`). -/
theorem C5_counterexample :
    c5Synced.connected = true ∧ c5Synced.synced = true ∧
    (onDisconnect c5Synced "transport close").1.connected = false ∧
    (onDisconnect c5Synced "transport close").1.synced = true ∧
    (onDisconnect c5Synced "transport close").2
      = [COut.event (CEvent.disconnectE "transport close")] :=
  ⟨rfl, rfl, rfl, rfl, rfl⟩

/-- C5 amended: on every transport disconnect the replica marks itself
disconnected and emits `disconnect` with the reason; the `synced` flag is
left exactly as it was (it is not revoked). -/
theorem C5_amended_disconnect (s : ClientState) (reason : String) :
    onDisconnect s reason
      = ({ s with connected := false }, [COut.event (CEvent.disconnectE reason)]) ∧
    (onDisconnect s reason).1.synced = s.synced :=
  ⟨rfl, rfl⟩

/-- The accepted remote delete of the C6 counterexample: path
`["a", "b"]`, newer timestamp than the existing metadata. -/
def c6op : Operation :=
  { id := "d1", path := [.str "a", .str "b"], op := .del, value := none,
    timestamp := 200, actorId := "B", version := 2 }

/-- Metadata carrying an entry at `["a", "b"]` while the document lacks
the intermediate container `"a"`. -/
def c6md : MetaMap := [(pathKey [.str "a", .str "b"], ⟨100, "A", 1⟩)]

/-- C6 counterexample: the delete is accepted by the merge decision
(200 > 100), but the client's intermediate walk aborts (`"a"` is missing,
collab-doc.ts lines 256-259) and returns before the metadata delete, so
the metadata entry at the path is NOT removed — refuting "an accepted
delete operation removes the metadata entry at p entirely" as a statement
about every path on every replica. -/
theorem C6_counterexample :
    clientDecide true (mdFind c6md (pathKey [.str "a", .str "b"])) c6op = true ∧
    clientApplyOperation (JValue.obj []) c6md c6op true
      = (JValue.obj [], c6md, []) ∧
    mdFind (clientApplyOperation (JValue.obj []) c6md c6op true).2.1
        (pathKey [.str "a", .str "b"])
      = some ⟨100, "A", 1⟩ := by
  refine ⟨by decide, rfl, rfl⟩

/-- C6 amended: on the server an accepted delete always removes the
metadata entry at the path entirely (no tombstone) — `deepDelete`'s early
return skips only the tree mutation; on the client an accepted delete
removes it provided the intermediate walk reaches the terminal segment.
Once the entry is gone, any subsequently arriving operation at that path —
including a set with a timestamp older than the delete's — finds no
existing metadata and is accepted by both client and server,
resurrecting the deleted value. -/
theorem C6_amended_delete_no_tombstone (roomId : String) (d : JValue)
    (md : MetaMap) (op op2 : Operation) :
    (op.op = .del → serverDecide (mdFind md (pathKey op.path)) op = true →
      mdFind (serverHandle roomId d md op).2.1 (pathKey op.path) = none) ∧
    (op.op = .del → clientDecide true (mdFind md (pathKey op.path)) op = true →
      (clientWalk op.op (op.value.getD (.prim .undef)) d op.path).isSome = true →
      mdFind (clientApplyOperation d md op true).2.1 (pathKey op.path) = none) ∧
    (mdFind md (pathKey op2.path) = none →
      serverDecide (mdFind md (pathKey op2.path)) op2 = true ∧
      clientDecide true (mdFind md (pathKey op2.path)) op2 = true) := by
  refine ⟨?_, ?_, ?_⟩
  · intro hdel hacc
    unfold serverHandle
    simp [hacc, hdel, mdFind_mdRemove_self]
  · intro hdel hacc hwalk
    unfold clientApplyOperation
    simp only [hacc, if_true]
    obtain ⟨d2, hd2⟩ := Option.isSome_iff_exists.mp hwalk
    rw [hd2]
    simp [hdel, mdFind_mdRemove_self]
  · intro h
    rw [h]
    exact ⟨rfl, rfl⟩

/-- C6 amended, witness: an accepted delete at `["a"]` (timestamp 200)
removes the metadata entry on both server and client, and a later `set`
at the same path with the older timestamp 10 is then accepted by both. -/
theorem C6_amended_delete_no_tombstone_witness :
    mdFind
        (serverHandle "r" (JValue.obj [("a", JValue.prim (Prim.num 3))])
          [(pathKey [.str "a"], ⟨100, "A", 1⟩)]
          { id := "wd", path := [.str "a"], op := .del, value := none,
            timestamp := 200, actorId := "B", version := 2 }).2.1
        (pathKey [.str "a"])
      = none ∧
    mdFind
        (clientApplyOperation (JValue.obj [("a", JValue.prim (Prim.num 3))])
          [(pathKey [.str "a"], ⟨100, "A", 1⟩)]
          { id := "wd", path := [.str "a"], op := .del, value := none,
            timestamp := 200, actorId := "B", version := 2 } true).2.1
        (pathKey [.str "a"])
      = none ∧
    (serverDecide (mdFind [] (pathKey [.str "a"]))
        { id := "ws", path := [.str "a"], op := .set,
          value := some (.prim (.num 5)), timestamp := 10, actorId := "C",
          version := 1 } = true ∧
      clientDecide true (mdFind [] (pathKey [.str "a"]))
        { id := "ws", path := [.str "a"], op := .set,
          value := some (.prim (.num 5)), timestamp := 10, actorId := "C",
          version := 1 } = true) :=
  ⟨(C6_amended_delete_no_tombstone "r" (JValue.obj [("a", JValue.prim (Prim.num 3))])
      [(pathKey [.str "a"], ⟨100, "A", 1⟩)]
      { id := "wd", path := [.str "a"], op := .del, value := none,
        timestamp := 200, actorId := "B", version := 2 }
      { id := "ws", path := [.str "a"], op := .set,
        value := some (.prim (.num 5)), timestamp := 10, actorId := "C",
        version := 1 }).1 rfl (by decide),
   (C6_amended_delete_no_tombstone "r" (JValue.obj [("a", JValue.prim (Prim.num 3))])
      [(pathKey [.str "a"], ⟨100, "A", 1⟩)]
      { id := "wd", path := [.str "a"], op := .del, value := none,
        timestamp := 200, actorId := "B", version := 2 }
      { id := "ws", path := [.str "a"], op := .set,
        value := some (.prim (.num 5)), timestamp := 10, actorId := "C",
        version := 1 }).2.1 rfl (by decide) rfl,
   (C6_amended_delete_no_tombstone "r" (JValue.obj []) []
      { id := "wd", path := [.str "a"], op := .del, value := none,
        timestamp := 200, actorId := "B", version := 2 }
      { id := "ws", path := [.str "a"], op := .set,
        value := some (.prim (.num 5)), timestamp := 10, actorId := "C",
        version := 1 }).2.2 rfl⟩

/-- The operation queued while paused in the C4 counterexample (the
operation `localSet` constructs in that state). -/
def c4op : Operation :=
  { id := "B-q1", path := [.str "a"], op := .set,
    value := some (.prim (.num 1)), timestamp := 50, actorId := "B",
    version := 1 }

/-- The replica after: construct, `pause()`, local `set` (queued because
paused), transport `connect`.  Still paused. -/
def c4Conn : ClientState :=
  (onConnect
    (localSet (pauseClient (initClient "r" "B")).1 [.str "a"]
      (.prim (.num 1)) 50 "B-q1").1).1

/-- C4 counterexample: the claim says queued operations are sent only when
connected AND synced AND live, and that nothing is ever sent while
paused.  But `processOfflineQueue` (collab-doc.ts lines 200-208) checks
only `connected && syncedWithServer`; when the `initial_state` snapshot
arrives while the replica is paused, the flush runs and the queued
operation is sent with `liveState` still paused. -/
theorem C4_counterexample :
    c4Conn.live = false ∧
    c4Conn.offlineQueue = [c4op] ∧
    (onInitialState c4Conn (.obj []) []).1.live = false ∧
    (onInitialState c4Conn (.obj []) []).2
      = [COut.event CEvent.syncedE, COut.send c4op] ∧
    COut.send c4op ∈ (onInitialState c4Conn (.obj []) []).2 := by
  refine ⟨rfl, rfl, rfl, rfl, ?_⟩
  show COut.send c4op ∈ [COut.event CEvent.syncedE, COut.send c4op]
  exact List.Mem.tail _ (List.Mem.head _)

/-- C4 amended: a fresh local operation is never sent while paused (it is
always enqueued, whatever the connection state); the offline-queue flush
sends only when connected AND synced — the live flag is not consulted, so
the flush fires in every connected-and-synced state, paused included. -/
theorem C4_amended_send_guard (s : ClientState) (op : Operation) :
    (s.live = false →
      queueOrSendOperation s op
        = ({ s with offlineQueue := s.offlineQueue ++ [op] }, [])) ∧
    ((processOfflineQueue s).2 ≠ [] → s.connected = true ∧ s.synced = true) ∧
    (s.connected = true → s.synced = true → s.offlineQueue ≠ [] →
      processOfflineQueue s
        = ({ s with offlineQueue := [] }, s.offlineQueue.map COut.send)) := by
  refine ⟨?_, ?_, ?_⟩
  · intro h
    unfold queueOrSendOperation
    simp [h]
  · intro h
    by_cases hc : (s.connected && s.synced && !s.offlineQueue.isEmpty) = true
    · simp only [Bool.and_eq_true] at hc
      exact ⟨hc.1.1, hc.1.2⟩
    · exact absurd (by simp [processOfflineQueue, hc]) h
  · intro h1 h2 h3
    unfold processOfflineQueue
    simp [h1, h2, List.isEmpty_iff, h3]

/-- C4 amended, witness: in a concrete paused state a fresh operation is
queued and not sent, and a concrete connected-synced-paused state flushes
its queue. -/
theorem C4_amended_send_guard_witness :
    queueOrSendOperation { (initClient "r" "B") with live := false } c4op
      = ({ (initClient "r" "B") with
            live := false
            offlineQueue := (initClient "r" "B").offlineQueue ++ [c4op] }, []) ∧
    processOfflineQueue
        { (initClient "r" "B") with
          live := false
          connected := true
          synced := true
          offlineQueue := [c4op] }
      = ({ (initClient "r" "B") with
            live := false
            connected := true
            synced := true
            offlineQueue := [] }, [COut.send c4op]) :=
  ⟨(C4_amended_send_guard { (initClient "r" "B") with live := false } c4op).1 rfl,
   (C4_amended_send_guard
      { (initClient "r" "B") with
        live := false
        connected := true
        synced := true
        offlineQueue := [c4op] } c4op).2.2 rfl rfl
      (by simp)⟩

/-- The operation the C3 replica (actor "B") creates and sends
immediately while connected, synced and live. -/
def c3opB : Operation :=
  { id := "B-1", path := [.str "a"], op := .set,
    value := some (.prim (.num 1)), timestamp := 100, actorId := "B",
    version := 1 }

/-- A concurrent delete at the same path from actor "A" with a newer
timestamp. -/
def c3opA : Operation :=
  { id := "A-1", path := [.str "a"], op := .del, value := none,
    timestamp := 200, actorId := "A", version := 1 }

/-- The C3 replica after connect, initial sync and the local set. -/
def c3AfterSet : ClientState × List COut :=
  localSet (onInitialState ((onConnect (initClient "room" "B")).1) (.obj []) []).1
    [.str "a"] (.prim (.num 1)) 100 "B-1"

/-- ... after additionally merging the remote delete (accepted,
200 > 100: value and metadata entry at `["a"]` removed). -/
def c3AfterDel : ClientState × List COut := applyRemoteOperation c3AfterSet.1 c3opA

/-- ... after then receiving the server's echo of its own operation. -/
def c3Echo : ClientState × List COut := applyRemoteOperation c3AfterDel.1 c3opB

/-- C3 counterexample: the replica sent `c3opB` immediately, so the
operation was never in the offline queue; when the echo arrives after an
intervening accepted delete removed the metadata at the path, the echo
finds no metadata, is accepted, re-applies to document and metadata, and
emits a `change` event — refuting "never re-applied, no change emitted". -/
theorem C3_counterexample :
    c3AfterSet.2
      = [COut.event (CEvent.change [.str "a"] .set (some (.prim (.num 1))) false),
         COut.send c3opB] ∧
    c3AfterSet.1.offlineQueue = [] ∧
    mdFind c3AfterDel.1.metadata (pathKey [.str "a"]) = none ∧
    getPath c3AfterDel.1.doc [.str "a"] = none ∧
    c3Echo.2
      = [COut.event (CEvent.change [.str "a"] .set (some (.prim (.num 1))) true)] ∧
    mdFind c3Echo.1.metadata (pathKey [.str "a"]) = some ⟨100, "B", 1⟩ ∧
    getPath c3Echo.1.doc [.str "a"] = some (.prim (.num 1)) :=
  ⟨rfl, rfl, rfl, rfl, rfl, rfl, rfl⟩

/-- C3 amended: when the echo of a sent operation arrives, either (a) the
operation is still in the offline queue, in which case it is removed and
nothing else happens, or (b) the queue no longer holds it (the normal
case after an immediate send or an optimistic flush) and, provided the
metadata entry at the operation's path still carries the operation's own
timestamp and writer id — as it does whenever no accepted operation
intervened at that path — the echo is rejected by the LWW comparison and
neither mutates document or metadata nor emits any event.  (If an
intervening accepted delete removed the metadata entry, the echo is
re-applied and a `change` event is emitted, as the counterexample
shows.) -/
theorem C3_amended_echo (s : ClientState) (op : Operation) (m : Meta) :
    (op.id ∈ s.offlineQueue.map Operation.id →
      applyRemoteOperation s op
        = ({ s with offlineQueue := removeFirstById s.offlineQueue op.id }, [])) ∧
    (op.id ∉ s.offlineQueue.map Operation.id → s.live = true →
      mdFind s.metadata (pathKey op.path) = some m →
      m.timestamp = op.timestamp → m.actorId = op.actorId →
      applyRemoteOperation s op = (s, [])) := by
  constructor
  · intro hmem
    have hany : s.offlineQueue.any (fun q => q.id = op.id) = true := by
      simp only [List.any_eq_true, decide_eq_true_eq]
      obtain ⟨q, hq, hid⟩ := List.mem_map.mp hmem
      exact ⟨q, hq, hid⟩
    unfold applyRemoteOperation
    simp [hany]
  · intro hmem hlive hmd hts hactor
    have hany : s.offlineQueue.any (fun q => q.id = op.id) = false := by
      simp only [List.any_eq_false, decide_eq_true_eq]
      intro q hq hid
      exact hmem (List.mem_map.mpr ⟨q, hq, hid⟩)
    have hdec : clientDecide true (mdFind s.metadata (pathKey op.path)) op = false := by
      rw [hmd]
      simp [clientDecide, ← hts, ← hactor]
    have happ : clientApplyOperation s.doc s.metadata op true
        = (s.doc, s.metadata, []) := by
      unfold clientApplyOperation
      simp [hdec]
    unfold applyRemoteOperation
    simp [hany, hlive, happ]
    rw [← hlive]

/-- C3 amended, witness: a queued echo is dropped from the queue with no
other effect, and an echo arriving against the operation's own metadata
is rejected, leaving the state untouched and emitting nothing. -/
theorem C3_amended_echo_witness :
    applyRemoteOperation { (initClient "r" "B") with offlineQueue := [c3opB] } c3opB
      = ({ (initClient "r" "B") with
            offlineQueue := removeFirstById [c3opB] c3opB.id }, []) ∧
    applyRemoteOperation
        { (initClient "r" "B") with
          connected := true
          synced := true
          metadata := [(pathKey [.str "a"], ⟨100, "B", 1⟩)] } c3opB
      = ({ (initClient "r" "B") with
            connected := true
            synced := true
            metadata := [(pathKey [.str "a"], ⟨100, "B", 1⟩)] }, []) :=
  ⟨(C3_amended_echo { (initClient "r" "B") with offlineQueue := [c3opB] } c3opB
      ⟨0, "", 0⟩).1 (by simp),
   (C3_amended_echo
      { (initClient "r" "B") with
        connected := true
        synced := true
        metadata := [(pathKey [.str "a"], ⟨100, "B", 1⟩)] } c3opB
      ⟨100, "B", 1⟩).2 (by simp [initClient]) rfl rfl rfl rfl⟩

theorem send_not_in_clientApplyOperation (d : JValue) (m : MetaMap)
    (op : Operation) (r : Bool) (q : Operation) :
    COut.send q ∉ (clientApplyOperation d m op r).2.2 := by
  unfold clientApplyOperation
  by_cases h : clientDecide r (mdFind m (pathKey op.path)) op = true
  · simp only [h, if_true]
    cases hw : clientWalk op.op (op.value.getD (.prim .undef)) d op.path with
    | none => simp [hw]
    | some d2 => simp [hw]
  · simp [h]

/-- C9: the pause/resume contract.  While paused: a local set or delete is
applied immediately to the local document and metadata through the merge
algorithm in local mode, appended to the offline queue, and never sent
(the set's value is then visible via `get` whenever the path is non-empty
and the document is object-rooted, as in every reachable state); a
received remote operation whose id is not queued is appended verbatim to
the remote buffer with no mutation and no event.  On resume from the
paused state the remote buffer is drained strictly in arrival order with
every entry independently merged as a normal remote operation, the
offline queue is then flushed exactly when connected and synced, and the
`resume` event is emitted last; resume is a no-op when live and pause is
a no-op (no event) when already paused. -/
theorem C9_pause_resume_behavior (s : ClientState) (path : List Seg)
    (v : JValue) (ts : Int) (oid : String) (op : Operation) :
    (s.live = false →
      localSet s path v ts oid
        = ({ s with
              doc := (clientApplyOperation s.doc s.metadata
                        (mkSetOp s path v ts oid) false).1
              metadata := (clientApplyOperation s.doc s.metadata
                        (mkSetOp s path v ts oid) false).2.1
              offlineQueue := s.offlineQueue ++ [mkSetOp s path v ts oid] },
           (clientApplyOperation s.doc s.metadata
              (mkSetOp s path v ts oid) false).2.2)) ∧
    (s.live = false → s.doc.isObj = true → path ≠ [] →
      getPath (localSet s path v ts oid).1.doc path = some v) ∧
    (s.live = false →
      localDelete s path ts oid
        = ({ s with
              doc := (clientApplyOperation s.doc s.metadata
                        (mkDelOp s path ts oid) false).1
              metadata := (clientApplyOperation s.doc s.metadata
                        (mkDelOp s path ts oid) false).2.1
              offlineQueue := s.offlineQueue ++ [mkDelOp s path ts oid] },
           (clientApplyOperation s.doc s.metadata
              (mkDelOp s path ts oid) false).2.2)) ∧
    (s.live = false → ∀ q, COut.send q ∉ (localSet s path v ts oid).2) ∧
    (s.live = false → (∀ q ∈ s.offlineQueue, q.id ≠ op.id) →
      applyRemoteOperation s op
        = ({ s with remoteBuffer := s.remoteBuffer ++ [op] }, [])) ∧
    (s.live = false →
      (resumeClient s).1
        = { s with
            live := true
            doc := (mergeRemoteAll s.doc s.metadata s.remoteBuffer).1
            metadata := (mergeRemoteAll s.doc s.metadata s.remoteBuffer).2
            remoteBuffer := []
            offlineQueue :=
              if s.connected && s.synced && !s.offlineQueue.isEmpty
              then [] else s.offlineQueue } ∧
      (resumeClient s).2
        = (drainBuffer s.doc s.metadata s.remoteBuffer).2.2
            ++ (if s.connected && s.synced && !s.offlineQueue.isEmpty
                then s.offlineQueue.map COut.send else [])
            ++ [COut.event CEvent.resumeE]) ∧
    (s.live = true → resumeClient s = (s, [])) ∧
    (s.live = false → pauseClient s = (s, [])) ∧
    (s.live = true → pauseClient s = ({ s with live := false }, [.event .pauseE])) := by
  refine ⟨?_, ?_, ?_, ?_, ?_, ?_, ?_, ?_, ?_⟩
  · intro h
    simp [localSet, queueOrSendOperation, h]
  · intro h hobj hne
    have hdoc : (localSet s path v ts oid).1.doc
        = (clientApplyOperation s.doc s.metadata
            (mkSetOp s path v ts oid) false).1 := by
      simp [localSet, queueOrSendOperation, h]
    obtain ⟨cur2, hw, hg⟩ := clientWalk_set_get v path s.doc hne (Or.inl hobj)
    have happ : (clientApplyOperation s.doc s.metadata
        (mkSetOp s path v ts oid) false).1 = cur2 := by
      unfold clientApplyOperation
      simp only [clientDecide, if_true]
      simp only [mkSetOp, Option.getD_some]
      rw [hw]
    rw [hdoc, happ]
    exact hg
  · intro h
    simp [localDelete, queueOrSendOperation, h]
  · intro h q hq
    have heq : (localSet s path v ts oid).2
        = (clientApplyOperation s.doc s.metadata
            (mkSetOp s path v ts oid) false).2.2 := by
      simp [localSet, queueOrSendOperation, h]
    rw [heq] at hq
    exact send_not_in_clientApplyOperation _ _ _ _ q hq
  · intro h hqid
    have hany : s.offlineQueue.any (fun q => q.id = op.id) = false := by
      simp only [List.any_eq_false, decide_eq_true_eq]
      exact hqid
    unfold applyRemoteOperation
    simp [hany, h]
  · intro h
    have hkey := drainBuffer_eq_mergeRemoteAll s.remoteBuffer s.doc s.metadata
    constructor
    · by_cases hc : (s.connected && s.synced && !s.offlineQueue.isEmpty) = true
      · simp [resumeClient, processOfflineQueue, h, hc, hkey.1, hkey.2]
      · simp [resumeClient, processOfflineQueue, h, hc, hkey.1, hkey.2]
    · by_cases hc : (s.connected && s.synced && !s.offlineQueue.isEmpty) = true
      · simp [resumeClient, processOfflineQueue, h, hc]
      · simp [resumeClient, processOfflineQueue, h, hc]
  · intro h
    simp [resumeClient, h]
  · intro h
    simp [pauseClient, h]
  · intro h
    simp [pauseClient, h]

/-- An operation sitting in the offline queue of the C9 witness state. -/
def c9qop : Operation :=
  { id := "B-q", path := [.str "q"], op := .set,
    value := some (.prim (.num 1)), timestamp := 10, actorId := "B",
    version := 1 }

/-- A remote operation buffered while paused in the C9 witness state. -/
def c9rop : Operation :=
  { id := "A-r", path := [.str "r"], op := .set,
    value := some (.prim (.num 2)), timestamp := 20, actorId := "A",
    version := 1 }

/-- A remote operation arriving while paused whose id is not queued. -/
def c9xop : Operation :=
  { id := "A-x", path := [.str "x"], op := .set,
    value := some (.prim (.num 3)), timestamp := 40, actorId := "A",
    version := 1 }

/-- A concrete paused, connected, synced replica with one queued and one
buffered operation. -/
def c9sW : ClientState :=
  { roomId := "r", actorId := "B", doc := .obj [], metadata := []
    offlineQueue := [c9qop], connected := true, synced := true
    live := false, remoteBuffer := [c9rop] }

/-- The same replica, live. -/
def c9sLive : ClientState := { c9sW with live := true }

/-- C9 witness: every part of the pause/resume theorem instantiated at the
concrete paused state (and the live state for the idempotence parts). -/
theorem C9_pause_resume_behavior_witness :
    (localSet c9sW [.str "p"] (.prim (.num 5)) 30 "B-p"
      = ({ c9sW with
            doc := (clientApplyOperation c9sW.doc c9sW.metadata
                      (mkSetOp c9sW [.str "p"] (.prim (.num 5)) 30 "B-p") false).1
            metadata := (clientApplyOperation c9sW.doc c9sW.metadata
                      (mkSetOp c9sW [.str "p"] (.prim (.num 5)) 30 "B-p") false).2.1
            offlineQueue := c9sW.offlineQueue
              ++ [mkSetOp c9sW [.str "p"] (.prim (.num 5)) 30 "B-p"] },
         (clientApplyOperation c9sW.doc c9sW.metadata
            (mkSetOp c9sW [.str "p"] (.prim (.num 5)) 30 "B-p") false).2.2)) ∧
    getPath (localSet c9sW [.str "p"] (.prim (.num 5)) 30 "B-p").1.doc [.str "p"]
      = some (.prim (.num 5)) ∧
    (localDelete c9sW [.str "p"] 30 "B-p2"
      = ({ c9sW with
            doc := (clientApplyOperation c9sW.doc c9sW.metadata
                      (mkDelOp c9sW [.str "p"] 30 "B-p2") false).1
            metadata := (clientApplyOperation c9sW.doc c9sW.metadata
                      (mkDelOp c9sW [.str "p"] 30 "B-p2") false).2.1
            offlineQueue := c9sW.offlineQueue
              ++ [mkDelOp c9sW [.str "p"] 30 "B-p2"] },
         (clientApplyOperation c9sW.doc c9sW.metadata
            (mkDelOp c9sW [.str "p"] 30 "B-p2") false).2.2)) ∧
    COut.send c9qop ∉ (localSet c9sW [.str "p"] (.prim (.num 5)) 30 "B-p").2 ∧
    (applyRemoteOperation c9sW c9xop
      = ({ c9sW with remoteBuffer := c9sW.remoteBuffer ++ [c9xop] }, [])) ∧
    ((resumeClient c9sW).1
        = { c9sW with
            live := true
            doc := (mergeRemoteAll c9sW.doc c9sW.metadata c9sW.remoteBuffer).1
            metadata := (mergeRemoteAll c9sW.doc c9sW.metadata c9sW.remoteBuffer).2
            remoteBuffer := []
            offlineQueue :=
              if c9sW.connected && c9sW.synced && !c9sW.offlineQueue.isEmpty
              then [] else c9sW.offlineQueue } ∧
      (resumeClient c9sW).2
        = (drainBuffer c9sW.doc c9sW.metadata c9sW.remoteBuffer).2.2
            ++ (if c9sW.connected && c9sW.synced && !c9sW.offlineQueue.isEmpty
                then c9sW.offlineQueue.map COut.send else [])
            ++ [COut.event CEvent.resumeE]) ∧
    resumeClient c9sLive = (c9sLive, []) ∧
    pauseClient c9sW = (c9sW, []) ∧
    pauseClient c9sLive = ({ c9sLive with live := false }, [.event .pauseE]) :=
  ⟨(C9_pause_resume_behavior c9sW [.str "p"] (.prim (.num 5)) 30 "B-p" c9xop).1 rfl,
   (C9_pause_resume_behavior c9sW [.str "p"] (.prim (.num 5)) 30 "B-p" c9xop).2.1
      rfl rfl (by simp),
   (C9_pause_resume_behavior c9sW [.str "p"] (.prim (.num 5)) 30 "B-p2" c9xop).2.2.1
      rfl,
   (C9_pause_resume_behavior c9sW [.str "p"] (.prim (.num 5)) 30 "B-p" c9xop).2.2.2.1
      rfl c9qop,
   (C9_pause_resume_behavior c9sW [.str "p"] (.prim (.num 5)) 30 "B-p" c9xop).2.2.2.2.1
      rfl (by simp [c9sW, c9qop, c9xop]),
   (C9_pause_resume_behavior c9sW [.str "p"] (.prim (.num 5)) 30 "B-p" c9xop).2.2.2.2.2.1
      rfl,
   (C9_pause_resume_behavior c9sLive [.str "p"] (.prim (.num 5)) 30 "B-p" c9xop).2.2.2.2.2.2.1
      rfl,
   (C9_pause_resume_behavior c9sW [.str "p"] (.prim (.num 5)) 30 "B-p" c9xop).2.2.2.2.2.2.2.1
      rfl,
   (C9_pause_resume_behavior c9sLive [.str "p"] (.prim (.num 5)) 30 "B-p" c9xop).2.2.2.2.2.2.2.2
      rfl⟩
